import Mathlib

/-!
Verification of `nbconvert/preprocessors/csshtmlheader.py`
(`CSSHTMLHeaderPreprocessor`), the CSS-header assembler for HTML export.

The embedding models the module faithfully:

* File contents are raw byte sequences (`List Nat`).  Python-3 text-mode
  reading (`open(filename)` and `io.open(..., encoding="utf-8")`) performs
  universal-newline translation (`\r\n` and lone `\r` become `\n`); for
  valid UTF-8 content the decode/re-encode round trip performed by
  `str_to_bytes(f.read())` is the identity on bytes apart from that newline
  translation, so a text-mode read is modelled as `normalizeNewlines` of
  the on-disk bytes.
* `hashlib.md5` is an external library; it is modelled as an arbitrary
  digest function `md5 : List Nat -> List Nat`, universally quantified in
  the theorems.  `digestModel` is one concrete such function used to
  instantiate closed statements.
* The filesystem is a partial map from path to bytes; every `open` is
  recorded in a read trace, and the cache-populating hash of the default
  stylesheet is additionally counted (`dcnt`), mirroring the
  instrumented-hash test the specification asks for.
-/

/-- Errors surfaced by the assembler: a missing `config_dir` resource key
(Python `KeyError`, the ConfigurationError of the specification) and an
unreadable file (Python `IOError`, the ResourceNotFoundError of the
specification). -/
inductive Err where
  | configurationError : Err
  | resourceNotFound : String → Err
  deriving DecidableEq, Repr

/-- Values stored in the `resources` dictionary: strings, lists of CSS
blocks, and nested dictionaries. -/
inductive RVal where
  | str : String → RVal
  | blocks : List (List Nat) → RVal
  | rmap : List (String × RVal) → RVal

/-- The `resources` mapping: an ordered association list of string keys,
modelling a Python `dict`. -/
def Res : Type := List (String × RVal)

/-- Dictionary lookup, first binding wins (Python `dict` has unique keys;
we read through an association list). -/
def rlookup : Res → String → Option RVal
  | [], _ => none
  | (a, v) :: t, k => if a = k then some v else rlookup t k

/-- Dictionary store `d[k] = v`: replace the first binding of `k` in
place, or append a fresh binding. -/
def rset : Res → String → RVal → Res
  | [], k, v => [(k, v)]
  | (a, w) :: t, k, v => if a = k then (k, v) :: t else (a, w) :: rset t k v

/-- Python-3 universal-newline translation applied by text-mode file
reads: `\r\n` (13,10) and a lone `\r` (13) both become `\n` (10). -/
def normalizeNewlines : List Nat → List Nat
  | [] => []
  | 13 :: 10 :: rest => 10 :: normalizeNewlines rest
  | 13 :: rest => 10 :: normalizeNewlines rest
  | b :: rest => b :: normalizeNewlines rest

/-- `os.path.join` on POSIX paths. -/
def joinPath (a b : String) : String := a ++ "/" ++ b

/-- The candidate custom-stylesheet path `<config_dir>/custom/custom.css`. -/
def customCssPath (configDir : String) : String :=
  joinPath (joinPath configDir "custom") "custom.css"

/-- The default-reference stylesheet path
`<DEFAULT_STATIC_FILES_PATH>/custom/custom.css`. -/
def defaultCustomPath (dp : String) : String :=
  joinPath (joinPath dp "custom") "custom.css"

/-- The environment a call runs in: the filesystem, the directory of the
bundled `nbconvert.resources` package, the optional
`notebook.DEFAULT_STATIC_FILES_PATH` (absent when the `notebook` import
fails), and the Pygments `HtmlFormatter.get_style_defs` generator, a pure
function of the highlight-class selector. -/
structure Env where
  fs : String → Option (List Nat)
  resourcesDir : String
  defaultStaticFilesPath : Option String
  getStyleDefs : String → List Nat

/-- The per-instance mutable state of `CSSHTMLHeaderPreprocessor`: its one
field `_default_css_hash`, `None` until first computed. -/
structure PState where
  default_css_hash : Option (List Nat)
  deriving DecidableEq, Repr

/-- The state set up by `__init__`: no cached default hash. -/
def initState : PState := ⟨none⟩

/-- `_hash(filename)`: open the file in text mode, encode the text back to
bytes, and digest.  Text mode means the bytes fed to the digest are the
newline-normalized file content. -/
def hashFile (md5 : List Nat → List Nat) (fs : String → Option (List Nat))
    (p : String) : Except Err (List Nat) :=
  match fs p with
  | none => .error (.resourceNotFound p)
  | some c => .ok (md5 (normalizeNewlines c))

/-- Result of `_generate_header`: the CSS blocks, the instance state after
the call, the trace of file opens in order, and the number of times the
cache-populating default hash was computed. -/
structure GHOut where
  header : List (List Nat)
  st : PState
  reads : List String
  dcnt : Nat
  deriving DecidableEq, Repr

/-- The cache-populating step of `_generate_header`:
`if DEFAULT_STATIC_FILES_PATH and self._default_css_hash is None:` hash
the default-reference file and store it.  An empty
`DEFAULT_STATIC_FILES_PATH` is falsy, like an absent one. -/
def fillDefaultHash (md5 : List Nat → List Nat) (env : Env) (st : PState) :
    Except Err (PState × List String × Nat) :=
  match env.defaultStaticFilesPath, st.default_css_hash with
  | some dp, none =>
    if dp.isEmpty then .ok (st, [], 0)
    else
      match hashFile md5 env.fs (defaultCustomPath dp) with
      | .error e => .error e
      | .ok h => .ok (⟨some h⟩, [defaultCustomPath dp], 1)
  | _, _ => .ok (st, [], 0)

/-- `_generate_header(resources)`: read the base stylesheet
`style.min.css` as UTF-8 text, append the Pygments CSS for the configured
highlight class, then — when `<config_dir>/custom/custom.css` exists —
populate the default-hash cache if needed and append the candidate text
iff its hash differs from the cached default hash. -/
def generate_header (md5 : List Nat → List Nat) (env : Env) (hl : String)
    (st : PState) (res : Res) : Except Err GHOut :=
  let sheetPath := joinPath env.resourcesDir "style.min.css"
  match env.fs sheetPath with
  | none => .error (.resourceNotFound sheetPath)
  | some base =>
    let pyg := env.getStyleDefs hl
    match rlookup res "config_dir" with
    | some (.str cfg) =>
      let cpath := customCssPath cfg
      match env.fs cpath with
      | none => .ok ⟨[normalizeNewlines base, pyg], st, [sheetPath], 0⟩
      | some custom =>
        match fillDefaultHash md5 env st with
        | .error e => .error e
        | .ok (st', dreads, dcnt) =>
          if some (md5 (normalizeNewlines custom)) ≠ st'.default_css_hash then
            .ok ⟨[normalizeNewlines base, pyg, normalizeNewlines custom], st',
                 sheetPath :: dreads ++ [cpath, cpath], dcnt⟩
          else
            .ok ⟨[normalizeNewlines base, pyg], st',
                 sheetPath :: dreads ++ [cpath], dcnt⟩
    | _ => .error .configurationError

/-- Result of `preprocess`: the mutated `resources` plus the instance
state and instrumentation carried over from `_generate_header`. -/
structure PPOut where
  res : Res
  st : PState
  reads : List String
  dcnt : Nat

/-- `preprocess(nb, resources)`: set `resources["inlining"] = {}`, then
`resources["inlining"]["css"] = self._generate_header(resources)`.  The
notebook object is passed through untouched and is not modelled. -/
def preprocess (md5 : List Nat → List Nat) (env : Env) (hl : String)
    (st : PState) (res : Res) : Except Err PPOut :=
  let res1 := rset res "inlining" (.rmap [])
  match generate_header md5 env hl st res1 with
  | .error e => .error e
  | .ok g =>
    let inner := match rlookup res1 "inlining" with
      | some (.rmap m) => m
      | _ => []
    .ok ⟨rset res1 "inlining" (.rmap (rset inner "css" (.blocks g.header))),
         g.st, g.reads, g.dcnt⟩

/-- Repeated invocations of `preprocess` on one instance: thread the
instance state through the calls (a raised exception leaves the state
unchanged) and total the default-hash computation counter. -/
def runCalls (md5 : List Nat → List Nat) (env : Env) (hl : String) :
    PState → List Res → PState × Nat
  | st, [] => (st, 0)
  | st, r :: rs =>
    match preprocess md5 env hl st r with
    | .error _ => runCalls md5 env hl st rs
    | .ok g =>
      let p := runCalls md5 env hl g.st rs
      (p.1, g.dcnt + p.2)

/-- A concrete stand-in digest used to instantiate closed statements: a
base-256 fold of the bytes, tagged with the length.  The theorems
themselves quantify over the digest function. -/
def digestModel (bs : List Nat) : List Nat :=
  [bs.length, bs.foldl (fun a b => (a * 256 + b) % 2 ^ 128) 0]

/-- Rewrite every LF line ending as CRLF: the same text stored with
Windows line endings. -/
def crlfOf : List Nat → List Nat
  | [] => []
  | 10 :: rest => 13 :: 10 :: crlfOf rest
  | b :: rest => b :: crlfOf rest

/-- Nested lookup `r[k1][k2]` when `r[k1]` is a dictionary. -/
def rlookup2 (r : Res) (k1 k2 : String) : Option RVal :=
  match rlookup r k1 with
  | some (.rmap m) => rlookup m k2
  | _ => none

/-- A concrete filesystem used to instantiate closed statements: a base
stylesheet, a default-reference custom stylesheet `"a\n"`, one candidate
holding the same text with CRLF line endings, and one genuinely modified
candidate. -/
def exFs : String → Option (List Nat) := fun p =>
  if p = "rd/style.min.css" then some [66]
  else if p = "st/custom/custom.css" then some [97, 10]
  else if p = "cfg/custom/custom.css" then some [97, 13, 10]
  else if p = "cfg2/custom/custom.css" then some [120, 121]
  else none

/-- Concrete environment with a default-reference location available. -/
def exEnv : Env := ⟨exFs, "rd", some "st", fun _ => [80]⟩

/-- Concrete environment with no default-reference location (the
`notebook` import failed). -/
def exEnvNoDefault : Env := ⟨exFs, "rd", none, fun _ => [80]⟩

/-- Concrete environment whose default-reference location points at a
missing file. -/
def exEnvBadDefault : Env := ⟨exFs, "rd", some "missing", fun _ => [80]⟩

/-- Resources naming the config dir whose candidate differs from the
default only in line-ending style. -/
def exRes : Res := [("config_dir", RVal.str "cfg")]

/-- Resources naming the config dir with a genuinely modified candidate. -/
def exRes2 : Res := [("config_dir", RVal.str "cfg2")]

/-- Resources that also carry a pre-existing entry under `inlining`. -/
def exResInl : Res :=
  [("config_dir", RVal.str "cfg2"), ("inlining", RVal.rmap [("js", RVal.str "x")])]

/-- Looking up the key just stored finds the stored value. -/
theorem rlookup_rset_self (r : Res) (k : String) (v : RVal) :
    rlookup (rset r k v) k = some v := by
  induction r with
  | nil => simp [rset, rlookup]
  | cons p t ih =>
    by_cases h : p.1 = k
    · simp [rset, h, rlookup]
    · simp [rset, rlookup, h, ih]

/-- Storing under one key leaves the binding of every other key unchanged. -/
theorem rlookup_rset_ne (r : Res) (k k' : String) (v : RVal) (h : k' ≠ k) :
    rlookup (rset r k v) k' = rlookup r k' := by
  have hk : k ≠ k' := Ne.symm h
  induction r with
  | nil => simp [rset, rlookup, hk]
  | cons p t ih =>
    by_cases hp : p.1 = k
    · simp [rset, hp, rlookup, hk]
    · by_cases hp' : p.1 = k'
      · simp [rset, hp, rlookup, hp', h]
      · simp [rset, hp, rlookup, hp', ih]

/-- Normalization passes over a byte that is not a carriage return. -/
theorem normalizeNewlines_cons_ne (b : Nat) (r : List Nat) (hb : b ≠ 13) :
    normalizeNewlines (b :: r) = b :: normalizeNewlines r := by
  rw [normalizeNewlines.eq_def]
  split <;> simp_all

/-- Normalization turns a CRLF pair into a single LF. -/
theorem normalizeNewlines_crlf (r : List Nat) :
    normalizeNewlines (13 :: 10 :: r) = 10 :: normalizeNewlines r := rfl

/-- Content with no carriage return is untouched by normalization. -/
theorem normalizeNewlines_of_noCR (c : List Nat) (h : 13 ∉ c) :
    normalizeNewlines c = c := by
  induction c with
  | nil => rfl
  | cons b r ih =>
    have hb : b ≠ 13 := fun e => h (e ▸ List.mem_cons_self b r)
    have hr : 13 ∉ r := fun m => h (List.mem_cons_of_mem _ m)
    rw [normalizeNewlines_cons_ne b r hb, ih hr]

/-- Converting LF line endings to CRLF and reading back in text mode
recovers the original content. -/
theorem normalizeNewlines_crlfOf (c : List Nat) (h : 13 ∉ c) :
    normalizeNewlines (crlfOf c) = c := by
  induction c with
  | nil => rfl
  | cons b r ih =>
    have hb : b ≠ 13 := fun e => h (e ▸ List.mem_cons_self b r)
    have hr : 13 ∉ r := fun m => h (List.mem_cons_of_mem _ m)
    by_cases h10 : b = 10
    · subst h10
      rw [show crlfOf (10 :: r) = 13 :: 10 :: crlfOf r from rfl,
          normalizeNewlines_crlf, ih hr]
    · rw [show crlfOf (b :: r) = b :: crlfOf r from by
            rw [crlfOf.eq_def]; split <;> simp_all,
          normalizeNewlines_cons_ne b _ hb, ih hr]

/-- When no default-reference location is available the cache-populating
step does nothing. -/
theorem fill_none (md5 : List Nat → List Nat) (env : Env) (st : PState)
    (h : env.defaultStaticFilesPath = none) :
    fillDefaultHash md5 env st = .ok (st, [], 0) := by
  cases hch : st.default_css_hash <;> simp [fillDefaultHash, h, hch]

/-- When the default hash is already cached the cache-populating step
does nothing. -/
theorem fill_cached (md5 : List Nat → List Nat) (env : Env) (st : PState)
    (hv : List Nat) (h : st.default_css_hash = some hv) :
    fillDefaultHash md5 env st = .ok (st, [], 0) := by
  cases hdp : env.defaultStaticFilesPath <;> simp [fillDefaultHash, h, hdp]

/-- First need with a readable default-reference file: the default hash is
computed, one read occurs, and the cache is filled. -/
theorem fill_compute (md5 : List Nat → List Nat) (env : Env) (st : PState)
    (dp : String) (d : List Nat)
    (hdp : env.defaultStaticFilesPath = some dp) (he : dp.isEmpty = false)
    (hch : st.default_css_hash = none)
    (hd : env.fs (defaultCustomPath dp) = some d) :
    fillDefaultHash md5 env st =
      .ok (⟨some (md5 (normalizeNewlines d))⟩, [defaultCustomPath dp], 1) := by
  simp [fillDefaultHash, hdp, he, hch, hashFile, hd]

/-- First need with the default-reference file missing: the step fails. -/
theorem fill_missing (md5 : List Nat → List Nat) (env : Env) (st : PState)
    (dp : String)
    (hdp : env.defaultStaticFilesPath = some dp) (he : dp.isEmpty = false)
    (hch : st.default_css_hash = none)
    (hd : env.fs (defaultCustomPath dp) = none) :
    fillDefaultHash md5 env st = .error (.resourceNotFound (defaultCustomPath dp)) := by
  simp [fillDefaultHash, hdp, he, hch, hashFile, hd]


/-- Any successful cache-populating step either left the state alone with
no reads, or performed exactly one read of the default-reference file and
cached its hash. -/
theorem fill_ok_cases (md5 : List Nat → List Nat) (env : Env) (st : PState)
    (st' : PState) (dreads : List String) (dcnt : Nat)
    (h : fillDefaultHash md5 env st = .ok (st', dreads, dcnt)) :
    (st' = st ∧ dreads = [] ∧ dcnt = 0) ∨
    (∃ dp d, env.defaultStaticFilesPath = some dp ∧ st.default_css_hash = none ∧
      env.fs (defaultCustomPath dp) = some d ∧
      st' = ⟨some (md5 (normalizeNewlines d))⟩ ∧
      dreads = [defaultCustomPath dp] ∧ dcnt = 1) := by
  unfold fillDefaultHash at h
  split at h
  · next dp hdp hch =>
    split at h
    · left; simp_all
    · simp only [hashFile] at h
      cases hd : env.fs (defaultCustomPath dp) with
      | none => rw [hd] at h; simp at h
      | some d =>
        rw [hd] at h
        simp at h
        right
        refine ⟨dp, d, hdp, hch, hd, ?_, ?_, ?_⟩ <;> simp_all
  · left; simp_all

/-- Complete case analysis of a successful `_generate_header` call: the
base stylesheet was readable, `config_dir` was present, and the output is
one of the three source paths (no candidate; candidate included; candidate
excluded), with its exact blocks, state and read trace. -/
theorem generate_header_ok_cases (md5 : List Nat → List Nat) (env : Env) (hl : String)
    (st : PState) (res : Res) (g : GHOut)
    (h : generate_header md5 env hl st res = .ok g) :
    ∃ base cfg, env.fs (joinPath env.resourcesDir "style.min.css") = some base ∧
      rlookup res "config_dir" = some (RVal.str cfg) ∧
      ((env.fs (customCssPath cfg) = none ∧
         g = ⟨[normalizeNewlines base, env.getStyleDefs hl], st,
              [joinPath env.resourcesDir "style.min.css"], 0⟩) ∨
       (∃ c st' dreads dcnt, env.fs (customCssPath cfg) = some c ∧
         fillDefaultHash md5 env st = .ok (st', dreads, dcnt) ∧
         ((some (md5 (normalizeNewlines c)) ≠ st'.default_css_hash ∧
            g = ⟨[normalizeNewlines base, env.getStyleDefs hl, normalizeNewlines c], st',
                 joinPath env.resourcesDir "style.min.css" ::
                   dreads ++ [customCssPath cfg, customCssPath cfg], dcnt⟩) ∨
          (some (md5 (normalizeNewlines c)) = st'.default_css_hash ∧
            g = ⟨[normalizeNewlines base, env.getStyleDefs hl], st',
                 joinPath env.resourcesDir "style.min.css" ::
                   dreads ++ [customCssPath cfg], dcnt⟩)))) := by
  simp only [generate_header] at h
  split at h
  · exact absurd h (by simp)
  · next base hbase =>
    split at h
    · next cfg hcfg =>
      split at h
      · next hc =>
        refine ⟨base, cfg, hbase, hcfg, Or.inl ⟨hc, ?_⟩⟩
        injection h with h
        exact h.symm
      · next c hc =>
        split at h
        · exact absurd h (by simp)
        · next st' dreads dcnt hfill =>
          split at h
          · next hne =>
            injection h with h
            exact ⟨base, cfg, hbase, hcfg,
              Or.inr ⟨c, st', dreads, dcnt, hc, hfill, Or.inl ⟨hne, h.symm⟩⟩⟩
          · next hnn =>
            injection h with h
            exact ⟨base, cfg, hbase, hcfg,
              Or.inr ⟨c, st', dreads, dcnt, hc, hfill, Or.inr ⟨not_not.mp hnn, h.symm⟩⟩⟩
    · next hno => exact absurd h (by simp)

/-- A successful `preprocess` is a successful `_generate_header` on the
resources whose `inlining` entry was first reset to an empty dictionary,
with the header stored under `inlining.css`. -/
theorem preprocess_ok_elim (md5 : List Nat → List Nat) (env : Env) (hl : String)
    (st : PState) (res : Res) (g : PPOut)
    (h : preprocess md5 env hl st res = .ok g) :
    ∃ gh, generate_header md5 env hl st (rset res "inlining" (RVal.rmap [])) = .ok gh ∧
      g = ⟨rset (rset res "inlining" (RVal.rmap [])) "inlining"
             (RVal.rmap [("css", RVal.blocks gh.header)]), gh.st, gh.reads, gh.dcnt⟩ := by
  simp only [preprocess] at h
  split at h
  · exact absurd h (by simp)
  · next gh hgh =>
    rw [rlookup_rset_self] at h
    exact ⟨gh, hgh, (Except.ok.inj h).symm⟩

/-- Forward form of the same fact: from a successful `_generate_header`,
build the `preprocess` result. -/
theorem preprocess_ok_intro (md5 : List Nat → List Nat) (env : Env) (hl : String)
    (st : PState) (res : Res) (gh : GHOut)
    (h : generate_header md5 env hl st (rset res "inlining" (RVal.rmap [])) = .ok gh) :
    preprocess md5 env hl st res =
      .ok ⟨rset (rset res "inlining" (RVal.rmap [])) "inlining"
             (RVal.rmap [("css", RVal.blocks gh.header)]), gh.st, gh.reads, gh.dcnt⟩ := by
  simp only [preprocess, h, rlookup_rset_self, rset]

/-- One `preprocess` call either leaves the instance state alone and
computes no default hash, or — starting from an empty cache with a truthy
default location and a readable default file — caches the digest of that file,
counting exactly one computation. -/
theorem preprocess_cache_step (md5 : List Nat → List Nat) (env : Env) (hl : String)
    (st : PState) (res : Res) (g : PPOut)
    (h : preprocess md5 env hl st res = .ok g) :
    (g.st = st ∧ g.dcnt = 0) ∨
    (∃ dp d, env.defaultStaticFilesPath = some dp ∧ st.default_css_hash = none ∧
      env.fs (defaultCustomPath dp) = some d ∧
      g.st = ⟨some (md5 (normalizeNewlines d))⟩ ∧ g.dcnt = 1) := by
  obtain ⟨gh, hgh, hg⟩ := preprocess_ok_elim md5 env hl st res g h
  obtain ⟨base, cfg, hbase, hcfg, hcases⟩ :=
    generate_header_ok_cases md5 env hl st _ gh hgh
  subst hg
  rcases hcases with ⟨hc, rfl⟩ | ⟨c, st', dreads, dcnt, hc, hfill, hcases2⟩
  · exact Or.inl ⟨rfl, rfl⟩
  · have hst : gh.st = st' := by
      rcases hcases2 with ⟨hne, rfl⟩ | ⟨heq, rfl⟩ <;> rfl
    have hcnt : gh.dcnt = dcnt := by
      rcases hcases2 with ⟨hne, rfl⟩ | ⟨heq, rfl⟩ <;> rfl
    rcases fill_ok_cases md5 env st st' dreads dcnt hfill with
      ⟨h1, h2, h3⟩ | ⟨dp, d, hdp, hch, hd, h1, h2, h3⟩
    · exact Or.inl ⟨by simp [hst, h1], by simp [hcnt, h3]⟩
    · exact Or.inr ⟨dp, d, hdp, hch, hd, by simp [hst, h1], by simp [hcnt, h3]⟩

/-- Once the default hash is cached, any further sequence of calls leaves
the state untouched and performs zero default-hash computations. -/
theorem runCalls_cached_fixed (md5 : List Nat → List Nat) (env : Env) (hl : String)
    (hv : List Nat) :
    ∀ (rs : List Res) (st : PState), st.default_css_hash = some hv →
      runCalls md5 env hl st rs = (st, 0) := by
  intro rs
  induction rs with
  | nil => intro st hst; rfl
  | cons r rs ih =>
    intro st hst
    cases hp : preprocess md5 env hl st r with
    | error e => simp [runCalls, hp, ih st hst]
    | ok g =>
      rcases preprocess_cache_step md5 env hl st r g hp with ⟨hgs, hgc⟩ |
        ⟨dp, d, hdp, hch, hrest⟩
      · simp [runCalls, hp, hgs, hgc, ih st hst]
      · simp [hst] at hch

/-- With no default-reference location, the cache stays empty across any
sequence of calls. -/
theorem runCalls_cache_none (md5 : List Nat → List Nat) (env : Env) (hl : String)
    (hnd : env.defaultStaticFilesPath = none) :
    ∀ (rs : List Res) (st : PState), st.default_css_hash = none →
      (runCalls md5 env hl st rs).1.default_css_hash = none := by
  intro rs
  induction rs with
  | nil => intro st hst; exact hst
  | cons r rs ih =>
    intro st hst
    cases hp : preprocess md5 env hl st r with
    | error e => simpa [runCalls, hp] using ih st hst
    | ok g =>
      rcases preprocess_cache_step md5 env hl st r g hp with ⟨hgs, hgc⟩ |
        ⟨dp, d, hdp, hrest⟩
      · simpa [runCalls, hp, hgs] using ih g.st (hgs ▸ hst)
      · rw [hnd] at hdp; exact absurd hdp (by simp)

/-- From an empty cache, any sequence of calls either never computes the
default hash (cache still empty, count 0) or computes it exactly once and
ends with the digest of the default file cached. -/
theorem runCalls_fresh_cases (md5 : List Nat → List Nat) (env : Env) (hl : String)
    (dp : String) (d : List Nat)
    (hdp : env.defaultStaticFilesPath = some dp)
    (hd : env.fs (defaultCustomPath dp) = some d) :
    ∀ (rs : List Res) (st : PState), st.default_css_hash = none →
      ((runCalls md5 env hl st rs).1.default_css_hash = none ∧
        (runCalls md5 env hl st rs).2 = 0) ∨
      ((runCalls md5 env hl st rs).1 = ⟨some (md5 (normalizeNewlines d))⟩ ∧
        (runCalls md5 env hl st rs).2 = 1) := by
  intro rs
  induction rs with
  | nil => intro st hst; exact Or.inl ⟨hst, rfl⟩
  | cons r rs ih =>
    intro st hst
    cases hp : preprocess md5 env hl st r with
    | error e => simpa [runCalls, hp] using ih st hst
    | ok g =>
      rcases preprocess_cache_step md5 env hl st r g hp with ⟨hgs, hgc⟩ |
        ⟨dp', d', hdp', hch, hd', hgs, hgc⟩
      · simpa [runCalls, hp, hgs, hgc] using ih g.st (hgs ▸ hst)
      · have hdd : d' = d := by
          rw [hdp] at hdp'
          injection hdp' with e
          subst e
          rw [hd] at hd'
          exact (Option.some.inj hd').symm
        have hfix := runCalls_cached_fixed md5 env hl (md5 (normalizeNewlines d)) rs g.st
          (by rw [hgs, hdd])
        rw [hgs, hdd] at hfix
        right
        simp [runCalls, hp, hfix, hgs, hgc, hdd]

/-- Claim C1, counterexample: default file bytes `"a\n"`, candidate bytes
`"a\r\n"` — the files differ in bytes, yet the candidate is excluded (the
header keeps only the base and highlighting blocks), because both files
are read in text mode and hash equal after newline normalization. -/
theorem c1_counterexample_byte_difference_excluded :
    exFs (customCssPath "cfg") ≠ exFs (defaultCustomPath "st") ∧
    generate_header digestModel exEnv ".highlight" initState exRes =
      .ok ⟨[[66], [80]], ⟨some (digestModel [97, 10])⟩,
           ["rd/style.min.css", "st/custom/custom.css", "cfg/custom/custom.css"],
           1⟩ := by
  exact ⟨by decide, rfl⟩

/-- Claim C1 (amended): with a default-reference location available, a
readable default file and a present candidate, on a fresh instance the
default digest is cached and the candidate text is appended iff the digest
of its text-mode (newline-normalized) content differs from the cached
digest of the default content; in particular identical bytes are excluded,
while a byte difference is included only when it survives text-mode
newline normalization and does not collide under the digest. -/
theorem c1_custom_included_iff_digest_differs
    (md5 : List Nat → List Nat) (env : Env) (hl : String) (res : Res)
    (cfg dp : String) (base custom d : List Nat)
    (hbase : env.fs (joinPath env.resourcesDir "style.min.css") = some base)
    (hcfg : rlookup res "config_dir" = some (RVal.str cfg))
    (hdp : env.defaultStaticFilesPath = some dp) (he : dp.isEmpty = false)
    (hd : env.fs (defaultCustomPath dp) = some d)
    (hc : env.fs (customCssPath cfg) = some custom) :
    generate_header md5 env hl initState res =
      (if md5 (normalizeNewlines custom) = md5 (normalizeNewlines d) then
        .ok ⟨[normalizeNewlines base, env.getStyleDefs hl],
             ⟨some (md5 (normalizeNewlines d))⟩,
             [joinPath env.resourcesDir "style.min.css", defaultCustomPath dp,
              customCssPath cfg], 1⟩
      else
        .ok ⟨[normalizeNewlines base, env.getStyleDefs hl, normalizeNewlines custom],
             ⟨some (md5 (normalizeNewlines d))⟩,
             [joinPath env.resourcesDir "style.min.css", defaultCustomPath dp,
              customCssPath cfg, customCssPath cfg], 1⟩) ∧
    (custom = d →
      generate_header md5 env hl initState res =
        .ok ⟨[normalizeNewlines base, env.getStyleDefs hl],
             ⟨some (md5 (normalizeNewlines d))⟩,
             [joinPath env.resourcesDir "style.min.css", defaultCustomPath dp,
              customCssPath cfg], 1⟩) := by
  have hfill := fill_compute md5 env initState dp d hdp he rfl hd
  have hmain : generate_header md5 env hl initState res =
      (if md5 (normalizeNewlines custom) = md5 (normalizeNewlines d) then
        .ok ⟨[normalizeNewlines base, env.getStyleDefs hl],
             ⟨some (md5 (normalizeNewlines d))⟩,
             [joinPath env.resourcesDir "style.min.css", defaultCustomPath dp,
              customCssPath cfg], 1⟩
      else
        .ok ⟨[normalizeNewlines base, env.getStyleDefs hl, normalizeNewlines custom],
             ⟨some (md5 (normalizeNewlines d))⟩,
             [joinPath env.resourcesDir "style.min.css", defaultCustomPath dp,
              customCssPath cfg, customCssPath cfg], 1⟩) := by
    by_cases hcmp : md5 (normalizeNewlines custom) = md5 (normalizeNewlines d)
    · simp [generate_header, hbase, hcfg, hc, hfill, hcmp]
    · simp [generate_header, hbase, hcfg, hc, hfill, hcmp]
  refine ⟨hmain, fun hcd => ?_⟩
  rw [hmain, if_pos (by rw [hcd])]

/-- Witness for C1 at a concrete modified candidate: the digest differs,
so the candidate block is appended last. -/
theorem c1_custom_included_iff_digest_differs_witness :
    generate_header digestModel exEnv ".highlight" initState exRes2 =
      .ok ⟨[[66], [80], [120, 121]], ⟨some (digestModel [97, 10])⟩,
           ["rd/style.min.css", "st/custom/custom.css", "cfg2/custom/custom.css",
            "cfg2/custom/custom.css"], 1⟩ := by
  have h := (c1_custom_included_iff_digest_differs digestModel exEnv ".highlight"
    exRes2 "cfg2" "st" [66] [120, 121] [97, 10] rfl rfl rfl rfl rfl rfl).1
  rw [h, if_neg (by decide)]
  rfl

/-- Claim C2, counterexample: two files holding the same text with LF
versus CRLF line endings — different raw bytes — hash identically, because
`_hash` opens the file in text mode (decoding plus universal-newline
normalization), not as raw bytes. -/
theorem c2_counterexample_line_endings_hash_equal :
    crlfOf [97, 10] = [97, 13, 10] ∧
    ([97, 10] : List Nat) ≠ [97, 13, 10] ∧
    hashFile digestModel exFs "st/custom/custom.css" =
      hashFile digestModel exFs "cfg/custom/custom.css" := by
  exact ⟨rfl, by decide, rfl⟩

/-- Claim C2 (amended): the hash is a digest of the bytes obtained by a
text-mode read — decoded and newline-normalized, not the raw bytes on
disk — so two files that differ only in line-ending style (one stores the
text of the other with CRLF line endings) hash identically. -/
theorem c2_hash_over_normalized_text (md5 : List Nat → List Nat)
    (fs : String → Option (List Nat)) (p q : String) (c : List Nat)
    (hnc : 13 ∉ c) (hp : fs p = some c) (hq : fs q = some (crlfOf c)) :
    hashFile md5 fs p = .ok (md5 c) ∧ hashFile md5 fs p = hashFile md5 fs q := by
  constructor
  · simp [hashFile, hp, normalizeNewlines_of_noCR c hnc]
  · simp [hashFile, hp, hq, normalizeNewlines_of_noCR c hnc,
      normalizeNewlines_crlfOf c hnc]

/-- Witness for C2 at the concrete pair `"a\n"` and `"a\r\n"`. -/
theorem c2_hash_over_normalized_text_witness :
    hashFile digestModel exFs "st/custom/custom.css" = .ok (digestModel [97, 10]) ∧
    hashFile digestModel exFs "st/custom/custom.css" =
      hashFile digestModel exFs "cfg/custom/custom.css" :=
  c2_hash_over_normalized_text digestModel exFs "st/custom/custom.css"
    "cfg/custom/custom.css" [97, 10] (by decide) rfl rfl

/-- Claim C7: when `<config_dir>/custom/custom.css` does not exist, the
call succeeds and `css_blocks` stored under `inlining.css` has exactly two
elements, the base stylesheet followed by the highlighting CSS; only the
base stylesheet file is read. -/
theorem c7_missing_custom_two_blocks (md5 : List Nat → List Nat) (env : Env)
    (hl : String) (st : PState) (res : Res) (cfg : String) (base : List Nat)
    (hbase : env.fs (joinPath env.resourcesDir "style.min.css") = some base)
    (hcfg : rlookup res "config_dir" = some (RVal.str cfg))
    (hc : env.fs (customCssPath cfg) = none) :
    ∃ g, preprocess md5 env hl st res = .ok g ∧
      rlookup2 g.res "inlining" "css" =
        some (RVal.blocks [normalizeNewlines base, env.getStyleDefs hl]) ∧
      g.reads = [joinPath env.resourcesDir "style.min.css"] := by
  have hcfg1 : rlookup (rset res "inlining" (RVal.rmap [])) "config_dir" =
      some (RVal.str cfg) := by
    rw [rlookup_rset_ne _ _ _ _ (by decide)]
    exact hcfg
  have hgen : generate_header md5 env hl st (rset res "inlining" (RVal.rmap [])) =
      .ok ⟨[normalizeNewlines base, env.getStyleDefs hl], st,
           [joinPath env.resourcesDir "style.min.css"], 0⟩ := by
    simp [generate_header, hbase, hcfg1, hc]
  refine ⟨_, preprocess_ok_intro md5 env hl st res _ hgen, ?_, rfl⟩
  simp [rlookup2, rlookup_rset_self, rlookup]

/-- Witness for C7: a config dir with no custom stylesheet yields the
two-block header. -/
theorem c7_missing_custom_two_blocks_witness :
    ∃ g, preprocess digestModel exEnv ".highlight" initState
        [("config_dir", RVal.str "nope")] = .ok g ∧
      rlookup2 g.res "inlining" "css" =
        some (RVal.blocks [normalizeNewlines [66], exEnv.getStyleDefs ".highlight"]) ∧
      g.reads = [joinPath exEnv.resourcesDir "style.min.css"] :=
  c7_missing_custom_two_blocks digestModel exEnv ".highlight" initState
    [("config_dir", RVal.str "nope")] "nope" [66] rfl rfl rfl

/-- Claim C8: a resources mapping lacking the `config_dir` key makes the
call fail with the configuration error (Python `KeyError`), producing no
`css_blocks` result. -/
theorem c8_missing_config_dir_errors (md5 : List Nat → List Nat) (env : Env)
    (hl : String) (st : PState) (res : Res) (base : List Nat)
    (hbase : env.fs (joinPath env.resourcesDir "style.min.css") = some base)
    (hcfg : rlookup res "config_dir" = none) :
    preprocess md5 env hl st res = .error .configurationError := by
  have hcfg1 : rlookup (rset res "inlining" (RVal.rmap [])) "config_dir" = none := by
    rw [rlookup_rset_ne _ _ _ _ (by decide)]
    exact hcfg
  simp [preprocess, generate_header, hbase, hcfg1]

/-- Witness for C8: an empty resources mapping. -/
theorem c8_missing_config_dir_errors_witness :
    preprocess digestModel exEnv ".highlight" initState [] =
      .error .configurationError :=
  c8_missing_config_dir_errors digestModel exEnv ".highlight" initState [] [66]
    rfl rfl

/-- Claim C10: with a default-reference location available, the candidate
present and the cache not yet set, the default-reference file is opened
unconditionally; when it is missing the whole call fails with a
resource-not-found error instead of falling back to including the
candidate. -/
theorem c10_missing_default_reference_fails (md5 : List Nat → List Nat)
    (env : Env) (hl : String) (st : PState) (res : Res) (cfg dp : String)
    (base c : List Nat)
    (hbase : env.fs (joinPath env.resourcesDir "style.min.css") = some base)
    (hcfg : rlookup res "config_dir" = some (RVal.str cfg))
    (hc : env.fs (customCssPath cfg) = some c)
    (hdp : env.defaultStaticFilesPath = some dp) (he : dp.isEmpty = false)
    (hst : st.default_css_hash = none)
    (hd : env.fs (defaultCustomPath dp) = none) :
    generate_header md5 env hl st res =
      .error (.resourceNotFound (defaultCustomPath dp)) := by
  have hfill := fill_missing md5 env st dp hdp he hst hd
  simp [generate_header, hbase, hcfg, hc, hfill]

/-- Witness for C10: a default location pointing at a missing file. -/
theorem c10_missing_default_reference_fails_witness :
    generate_header digestModel exEnvBadDefault ".highlight" initState exRes2 =
      .error (.resourceNotFound (defaultCustomPath "missing")) :=
  c10_missing_default_reference_fails digestModel exEnvBadDefault ".highlight"
    initState exRes2 "cfg2" "missing" [66] [120, 121] rfl rfl rfl rfl rfl rfl rfl

/-- The concrete resources produced by the C3 run: the whole `inlining`
entry has been replaced, so the pre-existing `js` entry is gone. -/
def exResInlOut : Res :=
  [("config_dir", RVal.str "cfg2"),
   ("inlining", RVal.rmap [("css", RVal.blocks [[66], [80], [120, 121]])])]

/-- Claim C3, counterexample: a resources mapping carrying a pre-existing
`inlining.js` entry loses it — `preprocess` replaces the entire `inlining`
dictionary with a fresh one before storing `css`, rather than writing only
the `css` field. -/
theorem c3_counterexample_inlining_cleared :
    rlookup2 exResInl "inlining" "js" = some (RVal.str "x") ∧
    preprocess digestModel exEnvNoDefault ".highlight" initState exResInl =
      .ok ⟨exResInlOut, initState,
           ["rd/style.min.css", "cfg2/custom/custom.css", "cfg2/custom/custom.css"],
           0⟩ ∧
    rlookup2 exResInlOut "inlining" "js" = none := by
  exact ⟨rfl, rfl, rfl⟩

/-- Claim C3 (amended): a successful call mutates only the top-level
`inlining` entry, which it replaces wholesale with a fresh dictionary
containing exactly the `css` key; every other top-level key keeps its
prior binding, but pre-existing keys under `inlining` other than `css` are
dropped rather than preserved. -/
theorem c3_mutates_only_inlining (md5 : List Nat → List Nat) (env : Env)
    (hl : String) (st : PState) (res : Res) (g : PPOut)
    (h : preprocess md5 env hl st res = .ok g) :
    (∀ k, k ≠ "inlining" → rlookup g.res k = rlookup res k) ∧
    (∃ blocks, rlookup g.res "inlining" =
      some (RVal.rmap [("css", RVal.blocks blocks)])) := by
  obtain ⟨gh, hgh, hg⟩ := preprocess_ok_elim md5 env hl st res g h
  subst hg
  constructor
  · intro k hk
    rw [rlookup_rset_ne _ _ _ _ hk, rlookup_rset_ne _ _ _ _ hk]
  · exact ⟨gh.header, rlookup_rset_self _ _ _⟩

/-- Witness for C3 at a concrete run. -/
theorem c3_mutates_only_inlining_witness :
    (∀ k, k ≠ "inlining" →
      rlookup (⟨exResInlOut, initState,
        ["rd/style.min.css", "cfg2/custom/custom.css", "cfg2/custom/custom.css"],
        0⟩ : PPOut).res k = rlookup exResInl k) ∧
    (∃ blocks, rlookup (⟨exResInlOut, initState,
        ["rd/style.min.css", "cfg2/custom/custom.css", "cfg2/custom/custom.css"],
        0⟩ : PPOut).res "inlining" =
      some (RVal.rmap [("css", RVal.blocks blocks)])) :=
  c3_mutates_only_inlining digestModel exEnvNoDefault ".highlight" initState
    exResInl _ rfl

/-- Claim C4: every successful call produces the base-stylesheet block
first and the highlighting CSS second; the only possible further block is
the candidate custom stylesheet, which, when included, is third and last —
the blocks are never reordered. -/
theorem c4_blocks_ordered (md5 : List Nat → List Nat) (env : Env) (hl : String)
    (st : PState) (res : Res) (g : GHOut) (base : List Nat)
    (hbase : env.fs (joinPath env.resourcesDir "style.min.css") = some base)
    (h : generate_header md5 env hl st res = .ok g) :
    ∃ t, g.header = normalizeNewlines base :: env.getStyleDefs hl :: t ∧
      (t = [] ∨ ∃ cfg c, rlookup res "config_dir" = some (RVal.str cfg) ∧
        env.fs (customCssPath cfg) = some c ∧ t = [normalizeNewlines c]) := by
  obtain ⟨base2, cfg, hbase2, hcfg, hcases⟩ :=
    generate_header_ok_cases md5 env hl st res g h
  have hb : base2 = base := by
    rw [hbase] at hbase2
    exact (Option.some.inj hbase2).symm
  subst hb
  rcases hcases with ⟨hc, rfl⟩ | ⟨c, st2, dreads, dcnt, hc, hfill, hcases2⟩
  · exact ⟨[], rfl, Or.inl rfl⟩
  · rcases hcases2 with ⟨hne, rfl⟩ | ⟨heq, rfl⟩
    · exact ⟨[normalizeNewlines c], rfl, Or.inr ⟨cfg, c, hcfg, hc, rfl⟩⟩
    · exact ⟨[], rfl, Or.inl rfl⟩

/-- Witness for C4 at a concrete included-candidate run. -/
theorem c4_blocks_ordered_witness :
    ∃ t, ([[66], [80], [120, 121]] : List (List Nat)) =
        normalizeNewlines [66] :: exEnvNoDefault.getStyleDefs ".highlight" :: t ∧
      (t = [] ∨ ∃ cfg c, rlookup exRes2 "config_dir" = some (RVal.str cfg) ∧
        exEnvNoDefault.fs (customCssPath cfg) = some c ∧
        t = [normalizeNewlines c]) := by
  have h := c4_blocks_ordered digestModel exEnvNoDefault ".highlight" initState
    exRes2 ⟨[[66], [80], [120, 121]], initState,
      ["rd/style.min.css", "cfg2/custom/custom.css", "cfg2/custom/custom.css"], 0⟩
    [66] rfl rfl
  exact h

/-- Claim C5: over any sequence of calls on one freshly constructed
instance, the default-reference hash is computed at most once — exactly
once whenever the cache ends up set, and then with the digest of the
default file — and once the cache is set, any further sequence of calls
neither recomputes nor overwrites it. -/
theorem c5_default_hash_memoized (md5 : List Nat → List Nat) (env : Env)
    (hl : String) (dp : String) (d : List Nat) (rs rs2 : List Res)
    (st : PState) (hv : List Nat)
    (hdp : env.defaultStaticFilesPath = some dp)
    (hd : env.fs (defaultCustomPath dp) = some d) :
    ((runCalls md5 env hl initState rs).2 ≤ 1 ∧
      ((runCalls md5 env hl initState rs).1.default_css_hash ≠ none →
        (runCalls md5 env hl initState rs).1 =
          ⟨some (md5 (normalizeNewlines d))⟩ ∧
        (runCalls md5 env hl initState rs).2 = 1)) ∧
    (st.default_css_hash = some hv → runCalls md5 env hl st rs2 = (st, 0)) := by
  refine ⟨⟨?_, ?_⟩, fun hst => runCalls_cached_fixed md5 env hl hv rs2 st hst⟩
  · rcases runCalls_fresh_cases md5 env hl dp d hdp hd rs initState rfl with
      ⟨h1, h2⟩ | ⟨h1, h2⟩
    · simp [h2]
    · simp [h2]
  · intro hne
    rcases runCalls_fresh_cases md5 env hl dp d hdp hd rs initState rfl with
      ⟨h1, h2⟩ | ⟨h1, h2⟩
    · exact absurd h1 hne
    · exact ⟨h1, h2⟩

/-- Witness for C5: two calls on a fresh instance compute the default hash
once; a further call on the cached state changes nothing. -/
theorem c5_default_hash_memoized_witness :
    (((runCalls digestModel exEnv ".highlight" initState [exRes2, exRes2]).2 ≤ 1 ∧
      ((runCalls digestModel exEnv ".highlight" initState
          [exRes2, exRes2]).1.default_css_hash ≠ none →
        (runCalls digestModel exEnv ".highlight" initState [exRes2, exRes2]).1 =
          ⟨some (digestModel (normalizeNewlines [97, 10]))⟩ ∧
        (runCalls digestModel exEnv ".highlight" initState [exRes2, exRes2]).2 = 1)) ∧
    ((⟨some (digestModel [97, 10])⟩ : PState).default_css_hash =
        some (digestModel [97, 10]) →
      runCalls digestModel exEnv ".highlight" ⟨some (digestModel [97, 10])⟩ [exRes2] =
        (⟨some (digestModel [97, 10])⟩, 0))) :=
  c5_default_hash_memoized digestModel exEnv ".highlight" "st" [97, 10]
    [exRes2, exRes2] [exRes2] ⟨some (digestModel [97, 10])⟩
    (digestModel [97, 10]) rfl rfl

/-- Claim C6: with no default-reference location available, every
invocation on any state reachable from a fresh instance that finds the
candidate present includes its content, regardless of what that content
is. -/
theorem c6_no_baseline_always_includes (md5 : List Nat → List Nat) (env : Env)
    (hl : String) (rs : List Res) (res : Res) (cfg : String) (base c : List Nat)
    (hnodef : env.defaultStaticFilesPath = none)
    (hbase : env.fs (joinPath env.resourcesDir "style.min.css") = some base)
    (hcfg : rlookup res "config_dir" = some (RVal.str cfg))
    (hc : env.fs (customCssPath cfg) = some c) :
    generate_header md5 env hl (runCalls md5 env hl initState rs).1 res =
      .ok ⟨[normalizeNewlines base, env.getStyleDefs hl, normalizeNewlines c],
           (runCalls md5 env hl initState rs).1,
           [joinPath env.resourcesDir "style.min.css", customCssPath cfg,
            customCssPath cfg], 0⟩ := by
  have hcache := runCalls_cache_none md5 env hl hnodef rs initState rfl
  have hfill := fill_none md5 env (runCalls md5 env hl initState rs).1 hnodef
  simp [generate_header, hbase, hcfg, hc, hfill, hcache]

/-- Witness for C6: after one prior call, a candidate is still included
despite matching nothing. -/
theorem c6_no_baseline_always_includes_witness :
    generate_header digestModel exEnvNoDefault ".highlight"
        (runCalls digestModel exEnvNoDefault ".highlight" initState [exRes]).1
        exRes2 =
      .ok ⟨[normalizeNewlines [66], exEnvNoDefault.getStyleDefs ".highlight",
            normalizeNewlines [120, 121]],
           (runCalls digestModel exEnvNoDefault ".highlight" initState [exRes]).1,
           [joinPath exEnvNoDefault.resourcesDir "style.min.css",
            customCssPath "cfg2", customCssPath "cfg2"], 0⟩ :=
  c6_no_baseline_always_includes digestModel exEnvNoDefault ".highlight"
    [exRes] exRes2 "cfg2" [66] [120, 121] rfl rfl rfl rfl

/-- Claim C9, counterexample: a first call with a default reference
available and a modified candidate performs four file reads — base
stylesheet, default-reference hash read, candidate hash read, candidate
content read — exceeding the claimed bound of three. -/
theorem c9_counterexample_four_reads :
    (generate_header digestModel exEnv ".highlight" initState exRes2 =
      .ok ⟨[[66], [80], [120, 121]], ⟨some (digestModel [97, 10])⟩,
           ["rd/style.min.css", "st/custom/custom.css", "cfg2/custom/custom.css",
            "cfg2/custom/custom.css"], 1⟩) ∧
    (["rd/style.min.css", "st/custom/custom.css", "cfg2/custom/custom.css",
      "cfg2/custom/custom.css"] : List String).length = 4 := by
  exact ⟨rfl, rfl⟩

/-- Claim C9 (amended): every successful call performs at most four file
reads — base stylesheet, default-reference hash read, candidate hash read,
candidate content read — and at most three when the default hash is
already cached or no default-reference location is available. -/
theorem c9_at_most_four_reads (md5 : List Nat → List Nat) (env : Env)
    (hl : String) (st : PState) (res : Res) (g : GHOut)
    (h : generate_header md5 env hl st res = .ok g) :
    g.reads.length ≤ 4 ∧
    ((st.default_css_hash ≠ none ∨ env.defaultStaticFilesPath = none) →
      g.reads.length ≤ 3) := by
  obtain ⟨base, cfg, hbase, hcfg, hcases⟩ :=
    generate_header_ok_cases md5 env hl st res g h
  rcases hcases with ⟨hc, rfl⟩ | ⟨c, st2, dreads, dcnt, hc, hfill, hcases2⟩
  · exact ⟨by simp, fun _ => by simp⟩
  · rcases fill_ok_cases md5 env st st2 dreads dcnt hfill with
      ⟨h1, h2, h3⟩ | ⟨dp, d2, hdp, hch, hd2, h1, h2, h3⟩
    · subst h2
      rcases hcases2 with ⟨hne, rfl⟩ | ⟨heq, rfl⟩ <;>
        exact ⟨by simp, fun _ => by simp⟩
    · subst h2
      rcases hcases2 with ⟨hne, rfl⟩ | ⟨heq, rfl⟩
      · refine ⟨by simp, fun hor => ?_⟩
        rcases hor with hin | hnd
        · exact absurd hch hin
        · rw [hnd] at hdp
          exact absurd hdp (by simp)
      · exact ⟨by simp, fun _ => by simp⟩

/-- Witness for C9 at a concrete no-default run: two reads stay within
both bounds. -/
theorem c9_at_most_four_reads_witness :
    (["rd/style.min.css", "cfg2/custom/custom.css",
      "cfg2/custom/custom.css"] : List String).length ≤ 4 ∧
    (((⟨none⟩ : PState).default_css_hash ≠ none ∨
        exEnvNoDefault.defaultStaticFilesPath = none) →
      (["rd/style.min.css", "cfg2/custom/custom.css",
        "cfg2/custom/custom.css"] : List String).length ≤ 3) := by
  have h := c9_at_most_four_reads digestModel exEnvNoDefault ".highlight"
    initState exRes2
    ⟨[[66], [80], [120, 121]], ⟨none⟩,
     ["rd/style.min.css", "cfg2/custom/custom.css", "cfg2/custom/custom.css"], 0⟩
    rfl
  exact h
